import Mathlib

/-
Verification of the osgEarth texture-compositing fragment:
`src/osgEarth/TextureCompositor` (interface header with inline default
method bodies) and `src/osgEarthDrivers/engine_droam/Plugin.cpp`.

The header declares `TextureLayout`, `TextureCompositorTechnique` and
`TextureCompositor`.  Only the inline bodies (the technique defaults, the
accessors) are visible source; the out-of-line member bodies
(`getSlot`, `getMaxUsedSlot`, `isSlotAvailable`, `applyMapModelChange`,
`setReservedSlots`, ...) are not part of the visible fragment, so they are
modelled from the specification text, as marked on each definition.
-/

namespace OsgEarth

/-- Empty-slot marker: each texture slot contains the UID of the image layer
in that slot, or -1 if the slot is empty (TextureCompositor line 52). -/
def EMPTY : Int := -1

/-- The TextureLayout state, following the protected data members of the
header (TextureCompositor lines 102-107): the texture-slot vector (layer UID
per slot, -1 for empty), the render-order vector (indices into the slot
vector), the reserved-slot set, and the per-layer LOD-blending flags.
The reserved set and blending map are kept as lists; the
`_textureImageUnitPerSlot` flag is unused by every visible operation and is
omitted. -/
structure TextureLayout where
  slots : List Int
  order : List Nat
  reservedSlots : List Int
  lodBlending : List (Int × Bool)
deriving Repr, DecidableEq

/-- The freshly constructed layout: all vectors empty. -/
def emptyLayout : TextureLayout := ⟨[], [], [], []⟩

/-- Whether a slot index currently holds a layer UID (is occupied).  A slot
outside the vector, or holding the -1 marker, is not occupied. -/
def TextureLayout.slotOccupied (L : TextureLayout) (slot : Int) : Bool :=
  decide (0 ≤ slot) && decide (slot < (L.slots.length : Int)) &&
    (L.slots.getD slot.toNat EMPTY != EMPTY)

/-- Modelled from the spec: the body of `TextureLayout::isSlotAvailable`
(declared at TextureCompositor line 78) is not in the visible source; per the
spec it is true iff the slot is neither occupied nor reserved. -/
def TextureLayout.isSlotAvailable (L : TextureLayout) (slot : Int) : Bool :=
  !(L.slotOccupied slot) && !(L.reservedSlots.contains slot)

/-- Auxiliary scan for `getSlot`: walk the slot vector, bounded by
`maxLeft` slots, returning the index of the `which`-th slot holding `uid`,
or the -1 sentinel. -/
def getSlotAux (slots : List Int) (uid : Int) (which idx maxLeft : Nat) : Int :=
  match slots, maxLeft with
  | [], _ => -1
  | _ :: _, 0 => -1
  | s :: rest, m + 1 =>
    if s == uid then
      match which with
      | 0 => Int.ofNat idx
      | w + 1 => getSlotAux rest uid w (idx + 1) m
    else getSlotAux rest uid which (idx + 1) m

/-- Modelled from the spec: the body of `TextureLayout::getSlot` (declared at
TextureCompositor line 69) is not in the visible source; per the spec it
returns the index of the `which`-th slot (0 = primary) assigned to `layerUID`
within the first `maxSlotsToSearch` slots, or a not-found sentinel (-1). -/
def TextureLayout.getSlot (L : TextureLayout) (layerUID : Int)
    (which maxSlotsToSearch : Nat) : Int :=
  getSlotAux L.slots layerUID which 0 maxSlotsToSearch

/-- Auxiliary for `getMaxUsedSlot`: index of the last occupied slot of the
list, or -1 when every entry is the empty marker. -/
def maxUsedAux : List Int → Int
  | [] => -1
  | s :: rest =>
    let r := maxUsedAux rest
    if 0 ≤ r then r + 1
    else if s != EMPTY then 0 else -1

/-- Modelled from the spec: the body of `TextureLayout::getMaxUsedSlot`
(declared at TextureCompositor line 75) is not in the visible source; per the
spec it returns the highest index with non-empty occupancy, or a sentinel
(-1) if the layout is empty. -/
def TextureLayout.getMaxUsedSlot (L : TextureLayout) : Int :=
  maxUsedAux L.slots

/-- Accessor for the render-order vector (inline body at TextureCompositor
line 84). -/
def TextureLayout.getRenderOrder (L : TextureLayout) : List Nat := L.order

/-- Accessor for the texture-slot vector (inline body at TextureCompositor
line 81). -/
def TextureLayout.getTextureSlots (L : TextureLayout) : List Int := L.slots

/-- An image layer as far as the layout is concerned: its process-unique UID
and whether it requests LOD blending. -/
structure ImageLayer where
  uid : Int
  lodBlendingRequested : Bool
deriving Repr, DecidableEq

/-- Modelled from the spec: a map-model-change event carries the affected
layer and the nature of the change; the spec gives the layout policy for
layer additions and removals. -/
inductive MapModelChange where
  | addImageLayer (layer : ImageLayer)
  | removeImageLayer (layerUID : Int)
deriving Repr, DecidableEq

/-- First index at or past `start` that is not in the reserved list, found by
scanning with `fuel` steps of lookahead (a lookahead of one more than the
length of the reserved list always suffices). -/
def nextUnreservedAux (res : List Int) : Nat → Nat → Nat
  | start, 0 => start
  | start, fuel + 1 =>
    if res.contains (Int.ofNat start) then nextUnreservedAux res (start + 1) fuel
    else start

/-- Grow the slot vector to place `uid` at the first non-reserved index past
the current end, padding any skipped (reserved) indices with the empty
marker, and append the new index to the render order. -/
def TextureLayout.appendSlot (L : TextureLayout) (uid : Int) : TextureLayout :=
  let k := nextUnreservedAux L.reservedSlots L.slots.length (L.reservedSlots.length + 1)
  { L with
    slots := L.slots ++ (List.replicate (k - L.slots.length) EMPTY ++ [uid]),
    order := L.order ++ [k] }

/-- Modelled from the spec: one slot assignment of the allocation policy of
`TextureLayout::applyMapModelChange` (declared at TextureCompositor lines
95-98; body not in the visible source).  Scan for the lowest-indexed
available (non-reserved, non-occupied) slot and record the UID there,
growing the vector when no existing slot is available; the assigned index is
appended to the render order. -/
def TextureLayout.assignSlot (L : TextureLayout) (uid : Int) : TextureLayout :=
  match (List.range L.slots.length).find? (fun i => L.isSlotAvailable (Int.ofNat i)) with
  | some i => { L with slots := L.slots.set i uid, order := L.order ++ [i] }
  | none => L.appendSlot uid

/-- Modelled from the spec: `TextureLayout::applyMapModelChange` (declared at
TextureCompositor lines 95-98; body not in the visible source).  On an add,
the layer's LOD-blending flag is recorded (cleared when `disableLodBlending`
is set), the primary slot is assigned by the lowest-available-slot scan, and
when blending is on and `reserveSecondarySlotIfNecessary` holds a secondary
slot is assigned by continuing the same scan.  On a remove, the layer's
slots are freed (marked empty, so they are immediately reusable), its
render-order entries are dropped, and its blending flag is erased. -/
def TextureLayout.applyMapModelChange (L : TextureLayout) (change : MapModelChange)
    (reserveSecondarySlotIfNecessary disableLodBlending : Bool) : TextureLayout :=
  match change with
  | MapModelChange.addImageLayer layer =>
    let blending := layer.lodBlendingRequested && !disableLodBlending
    let L1 : TextureLayout :=
      { L with lodBlending :=
          (layer.uid, blending) :: L.lodBlending.filter (fun p => p.1 != layer.uid) }
    let L2 := L1.assignSlot layer.uid
    if blending && reserveSecondarySlotIfNecessary then L2.assignSlot layer.uid else L2
  | MapModelChange.removeImageLayer uid =>
    { slots := L.slots.map (fun s => if s == uid then EMPTY else s),
      order := L.order.filter (fun i => L.slots.getD i EMPTY != uid),
      reservedSlots := L.reservedSlots,
      lodBlending := L.lodBlending.filter (fun p => p.1 != uid) }

/-- Modelled from the spec: `TextureLayout::setReservedSlots` (declared at
TextureCompositor line 100; body not in the visible source).  Replaces the
reserved-slot set and touches nothing else: reservation is purely a
constraint on future allocation. -/
def TextureLayout.setReservedSlots (L : TextureLayout) (reservedSlots : List Int) :
    TextureLayout :=
  { L with reservedSlots := reservedSlots }

/-- The layout states reachable from the empty layout by map-model changes
and reservation updates.  An added layer carries a nonnegative UID (the -1
value is the empty marker) that is process-unique, hence not currently in
the slot vector; a layer may be re-added after its removal. -/
inductive Reachable : TextureLayout → Prop where
  | empty : Reachable emptyLayout
  | add (L : TextureLayout) (layer : ImageLayer) (rs dl : Bool)
      (hL : Reachable L) (hu : 0 ≤ layer.uid) (hfresh : layer.uid ∉ L.slots) :
      Reachable (L.applyMapModelChange (MapModelChange.addImageLayer layer) rs dl)
  | remove (L : TextureLayout) (uid : Int) (rs dl : Bool) (hL : Reachable L) :
      Reachable (L.applyMapModelChange (MapModelChange.removeImageLayer uid) rs dl)
  | reserve (L : TextureLayout) (res : List Int) (hL : Reachable L) :
      Reachable (L.setReservedSlots res)

/-- A geo-referenced image: treated as an abstract token, since only the
identity behaviour of the default technique is at stake. -/
structure GeoImage where
  ident : Nat
deriving Repr, DecidableEq

/-- A geographic tile extent, likewise abstract. -/
structure GeoExtent where
  ident : Nat
deriving Repr, DecidableEq

/-- Shader stage selector, standing in for `osg::Shader::Type`. -/
inductive ShaderType where
  | vertex
  | fragment
deriving Repr, DecidableEq

/-- A compiled shader object, abstract beyond its source text. -/
structure Shader where
  source : String
deriving Repr, DecidableEq

/-- Default (base-class) body of `TextureCompositorTechnique::prepareImage`
(TextureCompositor line 133): returns the input image unchanged. -/
def defaultPrepareImage (image : GeoImage) (_tileExtent : GeoExtent) : GeoImage :=
  image

/-- Default (base-class) body of
`TextureCompositorTechnique::prepareSecondaryImage` (TextureCompositor line
135): returns the input image unchanged. -/
def defaultPrepareSecondaryImage (image : GeoImage) (_tileExtent : GeoExtent) : GeoImage :=
  image

/-- Default (base-class) body of
`TextureCompositorTechnique::createSamplerFunction` (TextureCompositor lines
141-145): returns the null pointer (`none`) for every input. -/
def defaultCreateSamplerFunction (_layerUID : Int) (_functionName : String)
    (_type : ShaderType) (_layout : TextureLayout) : Option Shader :=
  none

/-- A texture-composition technique, as the record of virtual-method
behaviours declared at TextureCompositor lines 120-146.  The optional
methods default to the inline base-class bodies of the header. -/
structure TextureCompositorTechnique where
  requiresUnitTextureSpace : Bool
  usesShaderComposition : Bool
  blendingRequiresSecondarySlot : Bool := false
  supportsLayerUpdate : Bool := false
  prepareImage : GeoImage → GeoExtent → GeoImage := defaultPrepareImage
  prepareSecondaryImage : GeoImage → GeoExtent → GeoImage := defaultPrepareSecondaryImage
  createSamplerFunction : Int → String → ShaderType → TextureLayout → Option Shader :=
    defaultCreateSamplerFunction

/-- The texture compositor state the visible claims touch: the resolved
technique and the owned layout (TextureCompositor lines 288-290).  The
mutexes, option set and reserved-unit pool play no part in the modelled
operations. -/
structure TextureCompositor where
  impl : TextureCompositorTechnique
  layout : TextureLayout

/-- Modelled from the spec: the body of
`TextureCompositor::createSamplerFunction` (declared at TextureCompositor
line 273) is not in the visible source; per the spec it returns null when
the technique is not shader-based, and otherwise delegates to the
technique's sampler-function generator over the compositor's layout. -/
def TextureCompositor.createSamplerFunction (C : TextureCompositor) (layerUID : Int)
    (functionName : String) (type : ShaderType) : Option Shader :=
  if C.impl.usesShaderComposition then
    C.impl.createSamplerFunction layerUID functionName type C.layout
  else none

/-- The D-ROAM terrain root node, abstract: `new DRoamNode()` constructs the
one value (Plugin.cpp line 42). -/
inductive DRoamNode where
  | new
deriving Repr, DecidableEq

/-- Reader options, abstract; a null pointer is `none` at use sites. -/
structure ReaderOptions where
  ident : Nat
deriving Repr, DecidableEq

/-- Result of an `osgDB::ReaderWriter::readNode` call: a node, an error
message, or the not-handled status. -/
inductive ReadResult where
  | node (n : DRoamNode)
  | error (message : String)
  | fileNotHandled
deriving Repr, DecidableEq

/-- `DRoamEnginePlugin::readNode` (Plugin.cpp lines 40-43): unconditionally
returns a result wrapping a newly constructed `DRoamNode`, ignoring both
the file name and the options pointer. -/
def DRoamEnginePlugin.readNode (_fileName : String) (_options : Option ReaderOptions) :
    ReadResult :=
  ReadResult.node DRoamNode.new

/-- `DRoamEnginePlugin::acceptsExtension` (Plugin.cpp lines 35-38):
case-insensitive comparison against the synthetic extension. -/
def DRoamEnginePlugin.acceptsExtension (extension : String) : Bool :=
  extension.toLower == "engine_droam"

/-! ### List helper lemmas -/

theorem getD_set_self (l : List Int) (i : Nat) (h : i < l.length) (a : Int) :
    (l.set i a).getD i EMPTY = a := by
  simp [List.getD, List.getElem?_set, h]

theorem getD_set_ne (l : List Int) (i j : Nat) (a : Int) (h : i ≠ j) :
    (l.set i a).getD j EMPTY = l.getD j EMPTY := by
  simp [List.getD, List.getElem?_set, h]

theorem getD_replicate_empty (n j : Nat) :
    (List.replicate n EMPTY).getD j EMPTY = EMPTY := by
  rcases lt_or_ge j n with h | h
  · simp [List.getD, List.getElem?_replicate, h]
  · exact List.getD_eq_default _ _ (by simpa using h)

theorem count_replicate_empty (n : Nat) (u : Int) (hu : u ≠ EMPTY) :
    (List.replicate n EMPTY).count u = 0 := by
  induction n with
  | zero => rfl
  | succ n ih => simpa [List.replicate_succ, List.count_cons, hu, Ne.symm hu] using ih

theorem count_set_of_empty (l : List Int) (i : Nat) (a u : Int) (hi : i < l.length)
    (hold : l.getD i EMPTY = EMPTY) (hu : u ≠ EMPTY) :
    (l.set i a).count u = l.count u + (if a = u then 1 else 0) := by
  induction l generalizing i with
  | nil => simp at hi
  | cons s rest ih =>
    cases i with
    | zero =>
      have hs : s = EMPTY := by simpa [List.getD] using hold
      subst hs
      simp only [List.set_cons_zero, List.count_cons, beq_iff_eq, Ne.symm hu]
      simp
    | succ i =>
      have hold2 : rest.getD i EMPTY = EMPTY := by simpa [List.getD] using hold
      have hi2 : i < rest.length := by simpa using hi
      simp only [List.set_cons_succ, List.count_cons, ih i hi2 hold2]
      omega

theorem count_map_erase_le (l : List Int) (uid u : Int) (hu : u ≠ EMPTY) :
    (l.map (fun s => if s == uid then EMPTY else s)).count u ≤ l.count u := by
  induction l with
  | nil => simp
  | cons s rest ih =>
    rw [List.map_cons, List.count_cons, List.count_cons]
    refine Nat.add_le_add ih ?_
    by_cases hs : s = uid
    · simp [hs, Ne.symm hu]
    · simp [hs]

theorem getD_map_erase (l : List Int) (uid : Int) (j : Nat) :
    (l.map (fun s => if s == uid then EMPTY else s)).getD j EMPTY =
      (if l.getD j EMPTY = uid then EMPTY else l.getD j EMPTY) := by
  induction l generalizing j with
  | nil => simp [List.getD]
  | cons s rest ih =>
    cases j with
    | zero => simp [List.getD]
    | succ j => simpa [List.getD] using ih j

theorem nextUnreservedAux_ge (res : List Int) (start fuel : Nat) :
    start ≤ nextUnreservedAux res start fuel := by
  induction fuel generalizing start with
  | zero => exact Nat.le_refl _
  | succ fuel ih =>
    unfold nextUnreservedAux
    split
    · exact Nat.le_trans (Nat.le_succ _) (ih (start + 1))
    · exact Nat.le_refl _

/-! ### Occupancy and availability lemmas -/

theorem slotOccupied_ofNat (L : TextureLayout) (i : Nat) :
    L.slotOccupied (Int.ofNat i) =
      (decide (i < L.slots.length) && (L.slots.getD i EMPTY != EMPTY)) := by
  simp [TextureLayout.slotOccupied, Int.ofNat_nonneg]

theorem slotOccupied_iff (L : TextureLayout) (s : Int) :
    L.slotOccupied s = true ↔ (0 ≤ s ∧ L.slots.getD s.toNat EMPTY ≠ EMPTY) := by
  unfold TextureLayout.slotOccupied
  constructor
  · intro h
    simp only [Bool.and_eq_true, decide_eq_true_eq, bne_iff_ne] at h
    exact ⟨h.1.1, h.2⟩
  · rintro ⟨h0, hne⟩
    have hlt : s < (L.slots.length : Int) := by
      by_contra hge
      push_neg at hge
      have hle : L.slots.length ≤ s.toNat := by omega
      exact hne (List.getD_eq_default _ _ hle)
    simp only [Bool.and_eq_true, decide_eq_true_eq, bne_iff_ne]
    exact ⟨⟨h0, hlt⟩, hne⟩

theorem avail_getD (L : TextureLayout) (i : Nat) (hi : i < L.slots.length)
    (h : L.isSlotAvailable (Int.ofNat i) = true) : L.slots.getD i EMPTY = EMPTY := by
  have hocc : L.slotOccupied (Int.ofNat i) = false := by
    have h2 := h
    unfold TextureLayout.isSlotAvailable at h2
    simp only [Bool.and_eq_true, Bool.not_eq_true'] at h2
    exact h2.1
  rw [slotOccupied_ofNat] at hocc
  simpa [hi] using hocc

/-! ### Effect of a slot assignment on UID multiplicity -/

theorem assignSlot_count (L : TextureLayout) (uid u : Int) (hu : 0 ≤ u) :
    (L.assignSlot uid).slots.count u = L.slots.count u + (if uid = u then 1 else 0) := by
  have huE : u ≠ EMPTY := by
    intro h
    rw [h] at hu
    norm_num [EMPTY] at hu
  unfold TextureLayout.assignSlot
  split
  next i hfind =>
    have hi : i < L.slots.length := by
      simpa [List.mem_range] using List.mem_of_find?_eq_some hfind
    have hp : L.isSlotAvailable (Int.ofNat i) = true := by
      simpa using List.find?_some hfind
    exact count_set_of_empty L.slots i uid u hi (avail_getD L i hi hp) huE
  next hfind =>
    unfold TextureLayout.appendSlot
    simp only [List.count_append, count_replicate_empty _ u huE, List.count_cons,
      List.count_nil, beq_iff_eq]
    by_cases h : uid = u <;> simp [h]

/-! ### The render-order invariant -/

/-- The render-order vector is duplicate-free and contains exactly the
indices of the occupied slots. -/
def orderOK (L : TextureLayout) : Prop :=
  L.order.Nodup ∧
    ∀ i : Nat, i ∈ L.order ↔ (i < L.slots.length ∧ L.slots.getD i EMPTY ≠ EMPTY)

theorem orderOK_assignSlot (L : TextureLayout) (uid : Int) (hOK : orderOK L)
    (hu : uid ≠ EMPTY) : orderOK (L.assignSlot uid) := by
  obtain ⟨hnd, hmem⟩ := hOK
  unfold TextureLayout.assignSlot
  split
  next i hfind =>
    have hi : i < L.slots.length := by
      simpa [List.mem_range] using List.mem_of_find?_eq_some hfind
    have hp : L.isSlotAvailable (Int.ofNat i) = true := by
      simpa using List.find?_some hfind
    have hE := avail_getD L i hi hp
    have hniord : i ∉ L.order := fun hmem2 => ((hmem i).mp hmem2).2 hE
    refine ⟨by simpa [List.nodup_append] using ⟨hnd, hniord⟩, ?_⟩
    intro j
    simp only [List.mem_append, List.mem_singleton, List.length_set]
    by_cases hji : j = i
    · subst hji
      simp [getD_set_self L.slots j hi uid, hu, hi]
    · rw [getD_set_ne L.slots i j uid (fun h => hji h.symm)]
      simp only [hji, or_false]
      exact hmem j
  next hfind =>
    unfold TextureLayout.appendSlot
    have hklen : L.slots.length ≤
        nextUnreservedAux L.reservedSlots L.slots.length (L.reservedSlots.length + 1) :=
      nextUnreservedAux_ge _ _ _
    generalize hkdef :
      nextUnreservedAux L.reservedSlots L.slots.length (L.reservedSlots.length + 1) = k
    rw [hkdef] at hklen
    have hkord : k ∉ L.order := fun hmem2 => by
      have := ((hmem k).mp hmem2).1
      omega
    have hlen : (L.slots ++ (List.replicate (k - L.slots.length) EMPTY ++ [uid])).length
        = k + 1 := by
      simp
      omega
    refine ⟨by simpa [List.nodup_append] using ⟨hnd, hkord⟩, ?_⟩
    intro j
    simp only [List.mem_append, List.mem_singleton, hlen]
    by_cases hjlen : j < L.slots.length
    · rw [List.getD_append _ _ _ _ hjlen]
      have hjk : j ≠ k := by omega
      constructor
      · rintro (hj | hj)
        · obtain ⟨_, hne⟩ := (hmem j).mp hj
          exact ⟨by omega, hne⟩
        · exact absurd hj hjk
      · rintro ⟨_, hne⟩
        exact Or.inl ((hmem j).mpr ⟨hjlen, hne⟩)
    · push_neg at hjlen
      rw [List.getD_append_right _ _ _ _ hjlen]
      by_cases hjk : j = k
      · subst hjk
        have hrep : (List.replicate (j - L.slots.length) EMPTY).length ≤ j - L.slots.length := by
          simp
        rw [List.getD_append_right _ _ _ _ hrep]
        simp [hu]
      · constructor
        · rintro (hj | hj)
          · have := ((hmem j).mp hj).1
            omega
          · exact absurd hj hjk
        · rintro ⟨hjk1, hne⟩
          have hjltk : j < k := by omega
          have hrep : j - L.slots.length < (List.replicate (k - L.slots.length) EMPTY).length := by
            simp
            omega
          rw [List.getD_append _ _ _ _ hrep] at hne
          exact absurd (getD_replicate_empty _ _) hne

theorem orderOK_remove (L : TextureLayout) (uid : Int) (rs dl : Bool) (hOK : orderOK L) :
    orderOK (L.applyMapModelChange (MapModelChange.removeImageLayer uid) rs dl) := by
  obtain ⟨hnd, hmem⟩ := hOK
  unfold TextureLayout.applyMapModelChange
  refine ⟨hnd.filter _, ?_⟩
  intro j
  simp only [List.mem_filter, List.length_map, getD_map_erase, bne_iff_ne]
  constructor
  · rintro ⟨hj, hne⟩
    obtain ⟨hlt, hE⟩ := (hmem j).mp hj
    refine ⟨hlt, ?_⟩
    rw [if_neg hne]
    exact hE
  · rintro ⟨hlt, hne⟩
    by_cases hgu : L.slots.getD j EMPTY = uid
    · rw [if_pos hgu] at hne
      exact absurd rfl hne
    · rw [if_neg hgu] at hne
      exact ⟨(hmem j).mpr ⟨hlt, hne⟩, hgu⟩

theorem reachable_orderOK (L : TextureLayout) (hL : Reachable L) : orderOK L := by
  induction hL with
  | empty => exact ⟨List.nodup_nil, by simp [emptyLayout]⟩
  | add L layer rs dl hR hu hfresh ih =>
    have huE : layer.uid ≠ EMPTY := by
      intro h
      rw [h] at hu
      norm_num [EMPTY] at hu
    unfold TextureLayout.applyMapModelChange
    dsimp only
    split
    · exact orderOK_assignSlot _ _ (orderOK_assignSlot _ _ ih huE) huE
    · exact orderOK_assignSlot _ _ ih huE
  | remove L uid rs dl hR ih => exact orderOK_remove L uid rs dl ih
  | reserve L res hR ih => exact ih

theorem reachable_count_le_two (L : TextureLayout) (hL : Reachable L) :
    ∀ u : Int, 0 ≤ u → L.slots.count u ≤ 2 := by
  induction hL with
  | empty =>
    intro u hu
    simp [emptyLayout]
  | add L layer rs dl hR hu0 hfresh ih =>
    intro u hu
    have hcount0 : L.slots.count layer.uid = 0 := List.count_eq_zero.mpr hfresh
    unfold TextureLayout.applyMapModelChange
    dsimp only
    split
    · rw [assignSlot_count _ _ _ hu, assignSlot_count _ _ _ hu]
      dsimp only
      by_cases h : layer.uid = u
      · subst h
        rw [hcount0]
        simp
      · simp only [if_neg h, Nat.add_zero]
        exact ih u hu
    · rw [assignSlot_count _ _ _ hu]
      dsimp only
      by_cases h : layer.uid = u
      · subst h
        rw [hcount0]
        simp
      · simp only [if_neg h, Nat.add_zero]
        exact ih u hu
  | remove L uid rs dl hR ih =>
    intro u hu
    have huE : u ≠ EMPTY := by
      intro h
      rw [h] at hu
      norm_num [EMPTY] at hu
    exact le_trans (count_map_erase_le L.slots uid u huE) (ih u hu)
  | reserve L res hR ih => exact ih

/-! ### getSlot lemmas -/

theorem getSlotAux_zero_max (slots : List Int) (uid : Int) (which idx : Nat) :
    getSlotAux slots uid which idx 0 = -1 := by
  cases slots <;> rfl

theorem getSlotAux_not_mem (slots : List Int) (uid : Int) (hu : uid ∉ slots)
    (which idx maxLeft : Nat) : getSlotAux slots uid which idx maxLeft = -1 := by
  induction slots generalizing which idx maxLeft with
  | nil => cases maxLeft <;> rfl
  | cons s rest ih =>
    cases maxLeft with
    | zero => rfl
    | succ m =>
      simp only [List.mem_cons, not_or] at hu
      have hne : ¬ s = uid := fun h => hu.1 h.symm
      unfold getSlotAux
      simp only [beq_iff_eq, hne, if_false]
      exact ih hu.2 which (idx + 1) m

theorem getSlotAux_zero_mem (l : List Int) (u : Int) (idx : Nat) (hu : u ∈ l) :
    ∃ j : Nat, getSlotAux l u 0 idx l.length = Int.ofNat (idx + j) ∧ l.getD j EMPTY = u := by
  induction l generalizing idx with
  | nil => simp at hu
  | cons s rest ih =>
    by_cases hs : s = u
    · refine ⟨0, ?_, by simp [List.getD, hs]⟩
      unfold getSlotAux
      simp [hs]
    · have hu2 : u ∈ rest := by
        rcases List.mem_cons.mp hu with h | h
        · exact absurd h.symm hs
        · exact h
      obtain ⟨j, hj1, hj2⟩ := ih (idx + 1) hu2
      refine ⟨j + 1, ?_, by simpa [List.getD] using hj2⟩
      unfold getSlotAux
      simp only [beq_iff_eq, hs, if_false, List.length_cons]
      rw [hj1]
      congr 1
      omega

/-! ### getMaxUsedSlot lemmas -/

theorem maxUsedAux_spec (l : List Int) :
    (maxUsedAux l = -1 ∧ ∀ k : Nat, l.getD k EMPTY = EMPTY) ∨
    (∃ i : Nat, maxUsedAux l = Int.ofNat i ∧ l.getD i EMPTY ≠ EMPTY ∧
      ∀ j : Nat, i < j → l.getD j EMPTY = EMPTY) := by
  induction l with
  | nil =>
    left
    exact ⟨rfl, fun k => by simp [List.getD]⟩
  | cons s rest ih =>
    rcases ih with ⟨h1, h2⟩ | ⟨i, h1, h2, h3⟩
    · by_cases hs : s = EMPTY
      · left
        refine ⟨?_, ?_⟩
        · simp only [maxUsedAux, h1, hs]
          norm_num
        · intro k
          cases k with
          | zero => simpa [List.getD] using hs
          | succ k => simpa [List.getD] using h2 k
      · right
        refine ⟨0, ?_, by simpa [List.getD] using hs, ?_⟩
        · simp only [maxUsedAux, h1, bne_iff_ne, ne_eq, hs, not_false_eq_true, if_true]
          norm_num
        · intro j hj
          cases j with
          | zero => omega
          | succ j => simpa [List.getD] using h2 j
    · right
      refine ⟨i + 1, ?_, by simpa [List.getD] using h2, ?_⟩
      · simp only [maxUsedAux, h1]
        norm_num
      · intro j hj
        cases j with
        | zero => omega
        | succ j => simpa [List.getD] using h3 j (by omega)

/-- C4: getMaxUsedSlot returns the highest slot index whose slot holds a
layer UID (occupancy, not reservation, via slotOccupied), and the -1
sentinel exactly when no slot is occupied (in particular on the empty
layout). -/
theorem getMaxUsedSlot_correct (L : TextureLayout) :
    (L.getMaxUsedSlot = -1 ∧ ∀ s : Int, L.slotOccupied s = false) ∨
    (∃ i : Nat, L.getMaxUsedSlot = Int.ofNat i ∧ L.slotOccupied (Int.ofNat i) = true ∧
      ∀ s : Int, Int.ofNat i < s → L.slotOccupied s = false) := by
  rcases maxUsedAux_spec L.slots with ⟨h1, h2⟩ | ⟨i, h1, h2, h3⟩
  · left
    refine ⟨h1, fun s => ?_⟩
    refine Bool.eq_false_iff.mpr (fun h => ?_)
    obtain ⟨h0, hne⟩ := (slotOccupied_iff L s).mp h
    exact hne (h2 s.toNat)
  · right
    refine ⟨i, h1, ?_, ?_⟩
    · apply (slotOccupied_iff L (Int.ofNat i)).mpr
      exact ⟨Int.ofNat_nonneg i, by simpa using h2⟩
    · intro s hs
      refine Bool.eq_false_iff.mpr (fun h => ?_)
      obtain ⟨h0, hne⟩ := (slotOccupied_iff L s).mp h
      have hs2 : (i : Int) < s := hs
      exact hne (h3 s.toNat (by omega))

/-! ### Claim theorems -/

/-- C1: for every sequence of map-model changes (layer adds and removes)
applied via applyMapModelChange starting from the empty TextureLayout, no
two distinct layer UIDs ever occupy the same primary slot at the same time:
each occupied primary slot maps to exactly one layer UID, distinct resident
UIDs have distinct primary slots, and a UID occupies at most one additional
secondary slot (at most two slots in total). -/
theorem primary_slot_exclusive (L : TextureLayout) (hL : Reachable L) :
    (∀ (i : Nat) (u1 u2 : Int),
        L.slots.getD i EMPTY = u1 → L.slots.getD i EMPTY = u2 → u1 = u2) ∧
    (∀ u1 u2 : Int, u1 ∈ L.slots → u2 ∈ L.slots → u1 ≠ u2 →
        L.getSlot u1 0 L.slots.length ≠ L.getSlot u2 0 L.slots.length) ∧
    (∀ u : Int, 0 ≤ u → L.slots.count u ≤ 2) := by
  refine ⟨fun i u1 u2 h1 h2 => h1.symm.trans h2, ?_, reachable_count_le_two L hL⟩
  intro u1 u2 hm1 hm2 hne heq
  obtain ⟨j1, ha1, hb1⟩ := getSlotAux_zero_mem L.slots u1 0 hm1
  obtain ⟨j2, ha2, hb2⟩ := getSlotAux_zero_mem L.slots u2 0 hm2
  unfold TextureLayout.getSlot at heq
  rw [ha1, ha2] at heq
  have hjj : (0 + j1 : Nat) = 0 + j2 := Int.ofNat.inj heq
  have hj : j1 = j2 := by omega
  subst hj
  exact hne (hb1.symm.trans hb2)

/-- Concrete reachable layout used by the invariant witnesses: the empty
layout after adding a blending-enabled layer with UID 7, with the secondary
slot reserved (its slot vector evaluates to two slots holding UID 7). -/
def sampleLayout : TextureLayout :=
  emptyLayout.applyMapModelChange
    (MapModelChange.addImageLayer { uid := 7, lodBlendingRequested := true }) true false

theorem sampleLayout_reachable : Reachable sampleLayout :=
  Reachable.add emptyLayout { uid := 7, lodBlendingRequested := true } true false
    Reachable.empty (by norm_num) (by simp [emptyLayout])

/-- C1 witness: the primary-slot invariant at a concrete reachable layout. -/
theorem primary_slot_exclusive_witness :
    Reachable sampleLayout ∧
    ((∀ (i : Nat) (u1 u2 : Int),
        sampleLayout.slots.getD i EMPTY = u1 → sampleLayout.slots.getD i EMPTY = u2 →
          u1 = u2) ∧
     (∀ u1 u2 : Int, u1 ∈ sampleLayout.slots → u2 ∈ sampleLayout.slots → u1 ≠ u2 →
        sampleLayout.getSlot u1 0 sampleLayout.slots.length ≠
          sampleLayout.getSlot u2 0 sampleLayout.slots.length) ∧
     (∀ u : Int, 0 ≤ u → sampleLayout.slots.count u ≤ 2)) :=
  ⟨sampleLayout_reachable, primary_slot_exclusive sampleLayout sampleLayout_reachable⟩

/-- C2: in every TextureLayout state reachable by applyMapModelChange and
setReservedSlots, the render-order vector returned by getRenderOrder is a
permutation of the indices of the occupied slots: no slot index appears
twice in it and it contains exactly the indices of the non-empty slots. -/
theorem render_order_permutation (L : TextureLayout) (hL : Reachable L) :
    L.getRenderOrder.Nodup ∧
    ∀ i : Nat, i ∈ L.getRenderOrder ↔
      (i < L.getTextureSlots.length ∧ L.getTextureSlots.getD i EMPTY ≠ EMPTY) :=
  reachable_orderOK L hL

/-- C2 witness: the render-order invariant at a concrete reachable layout. -/
theorem render_order_permutation_witness :
    Reachable sampleLayout ∧
    (sampleLayout.getRenderOrder.Nodup ∧
     ∀ i : Nat, i ∈ sampleLayout.getRenderOrder ↔
       (i < sampleLayout.getTextureSlots.length ∧
        sampleLayout.getTextureSlots.getD i EMPTY ≠ EMPTY)) :=
  ⟨sampleLayout_reachable, render_order_permutation sampleLayout sampleLayout_reachable⟩

/-- C3: isSlotAvailable is true iff the slot is neither occupied nor
reserved; in particular it is false for every slot in the reserved set, in
every layout state. -/
theorem isSlotAvailable_iff_unoccupied_unreserved (L : TextureLayout) (slot : Int) :
    (L.isSlotAvailable slot = true ↔
      (L.slotOccupied slot = false ∧ slot ∉ L.reservedSlots)) ∧
    (slot ∈ L.reservedSlots → L.isSlotAvailable slot = false) := by
  have hcontains : L.reservedSlots.contains slot = true ↔ slot ∈ L.reservedSlots :=
    List.elem_iff
  constructor
  · constructor
    · intro h
      unfold TextureLayout.isSlotAvailable at h
      rw [Bool.and_eq_true, Bool.not_eq_true', Bool.not_eq_true'] at h
      refine ⟨h.1, fun hm => ?_⟩
      rw [← hcontains] at hm
      rw [hm] at h
      exact Bool.noConfusion h.2
    · rintro ⟨h1, h2⟩
      unfold TextureLayout.isSlotAvailable
      rw [Bool.and_eq_true, Bool.not_eq_true', Bool.not_eq_true']
      refine ⟨h1, ?_⟩
      rcases Bool.eq_false_or_eq_true (L.reservedSlots.contains slot) with ht | hf
      · exact absurd (hcontains.mp ht) h2
      · exact hf
  · intro hmem
    have hc : L.reservedSlots.contains slot = true := hcontains.mpr hmem
    unfold TextureLayout.isSlotAvailable
    rw [hc]
    simp

/-- C3 witness: a layout with reserved slot 3, tested at slot 3. -/
theorem isSlotAvailable_iff_witness :
    ((emptyLayout.setReservedSlots [3]).isSlotAvailable 3 = true ↔
      ((emptyLayout.setReservedSlots [3]).slotOccupied 3 = false ∧
        (3:Int) ∉ (emptyLayout.setReservedSlots [3]).reservedSlots)) ∧
    ((3:Int) ∈ (emptyLayout.setReservedSlots [3]).reservedSlots →
      (emptyLayout.setReservedSlots [3]).isSlotAvailable 3 = false) :=
  isSlotAvailable_iff_unoccupied_unreserved (emptyLayout.setReservedSlots [3]) 3

/-- C5: getSlot returns the not-found sentinel, not an error, for a UID that
occupies no slot, for every which and search bound; and a search bound of
zero always yields the sentinel. -/
theorem getSlot_sentinel_unknown_uid (L : TextureLayout) (layerUID : Int) (which : Nat) :
    (layerUID ∉ L.slots →
      ∀ maxSlotsToSearch : Nat, L.getSlot layerUID which maxSlotsToSearch = -1) ∧
    L.getSlot layerUID which 0 = -1 :=
  ⟨fun h m => getSlotAux_not_mem L.slots layerUID h which 0 m,
   getSlotAux_zero_max L.slots layerUID which 0⟩

/-- C5 witness: UID 5 occupies no slot of the sample layout, and both the
unknown-UID search and the zero-bounded search return the sentinel. -/
theorem getSlot_sentinel_witness :
    (5:Int) ∉ sampleLayout.slots ∧
    sampleLayout.getSlot 5 0 10 = -1 ∧
    sampleLayout.getSlot 5 0 0 = -1 :=
  ⟨by decide, (getSlot_sentinel_unknown_uid sampleLayout 5 0).1 (by decide) 10,
   (getSlot_sentinel_unknown_uid sampleLayout 5 0).2⟩

/-- C6: setReservedSlots replaces the reserved-slot set and leaves the slot
vector, render-order vector and blending flags unchanged; occupancy is
untouched, so no layer occupying a newly reserved slot is evicted. -/
theorem setReservedSlots_only_replaces_reserved (L : TextureLayout) (res : List Int) :
    (L.setReservedSlots res).reservedSlots = res ∧
    (L.setReservedSlots res).slots = L.slots ∧
    (L.setReservedSlots res).order = L.order ∧
    (L.setReservedSlots res).lodBlending = L.lodBlending ∧
    ∀ s : Int, (L.setReservedSlots res).slotOccupied s = L.slotOccupied s :=
  ⟨rfl, rfl, rfl, rfl, fun _ => rfl⟩

/-- C7: the default base-class prepareImage and prepareSecondaryImage return
the input image unchanged, for every image and tile extent. -/
theorem default_prepare_image_identity (image : GeoImage) (tileExtent : GeoExtent) :
    defaultPrepareImage image tileExtent = image ∧
    defaultPrepareSecondaryImage image tileExtent = image :=
  ⟨rfl, rfl⟩

/-- C8: the compositor's createSamplerFunction returns null whenever the
technique is not shader-based, and the base-class default implementation
returns null for every input. -/
theorem createSamplerFunction_null_not_shader (C : TextureCompositor) (layerUID : Int)
    (functionName : String) (type : ShaderType)
    (h : C.impl.usesShaderComposition = false) :
    C.createSamplerFunction layerUID functionName type = none ∧
    ∀ (u : Int) (f : String) (t : ShaderType) (lay : TextureLayout),
      defaultCreateSamplerFunction u f t lay = none := by
  refine ⟨?_, fun _ _ _ _ => rfl⟩
  unfold TextureCompositor.createSamplerFunction
  rw [h]
  simp

/-- C8 witness: a non-shader-based technique at concrete arguments. -/
theorem createSamplerFunction_null_witness :
    ({ impl := { requiresUnitTextureSpace := true, usesShaderComposition := false },
       layout := emptyLayout } : TextureCompositor).createSamplerFunction 0
        "osgearth_sample" ShaderType.fragment = none ∧
    ∀ (u : Int) (f : String) (t : ShaderType) (lay : TextureLayout),
      defaultCreateSamplerFunction u f t lay = none :=
  createSamplerFunction_null_not_shader _ 0 "osgearth_sample" ShaderType.fragment rfl

/-- C10: readNode always succeeds, returning a result wrapping a newly
constructed DRoamNode; the result does not depend on the file name or the
options pointer (including the null pointer), and is never an error
result. -/
theorem readNode_total (fileName : String) (options : Option ReaderOptions) :
    DRoamEnginePlugin.readNode fileName options = ReadResult.node DRoamNode.new ∧
    (∀ (fileName2 : String) (options2 : Option ReaderOptions),
      DRoamEnginePlugin.readNode fileName options =
        DRoamEnginePlugin.readNode fileName2 options2) ∧
    ∀ message : String,
      DRoamEnginePlugin.readNode fileName options ≠ ReadResult.error message :=
  ⟨rfl, fun _ _ => rfl, fun _ h => ReadResult.noConfusion h⟩

end OsgEarth
